import Mathlib

/-!
Verification development for the improut image-hosting daemon.

This file gives a shallow embedding, in Lean, of the core of improut:
the identifier and path policy (the name regular expressions), the
content store (storeFile / deleteFile over an association-list model of
the storage directory with its extended attributes), the expiration
sweeper (checkExpired), the request dispatcher, and the helper routines
they use (hex encoding, the xxhash-64 content digest, the Go
strconv.Atoi and filepath.Ext functions). Theorems at the end settle
the specification claims against these definitions.

Machine integers are modelled as Nat reduced modulo 2 ^ 64 where the Go
code computes on uint64; time instants are modelled as Int (in hours,
only their ordering matters); bytes are Nat values below 256.
-/

namespace Improut

/-! ## Hex encoding (Go encoding/hex, lowercase) -/

/-- One lowercase hex digit for a value (taken modulo 16), as in Go's
encoding/hex digit table "0123456789abcdef". -/
def hexDigitChar (n : Nat) : Char :=
  if n % 16 < 10 then Char.ofNat (48 + n % 16) else Char.ofNat (87 + n % 16)

/-- The two lowercase hex characters of one byte, high nibble first,
as produced by Go's hex.EncodeToString for a single byte. -/
def hexByte (b : Nat) : List Char :=
  [hexDigitChar (b / 16), hexDigitChar b]

/-- Go's hex.EncodeToString over a byte slice: two lowercase hex
characters per byte, in order. -/
def hexEncode (bs : List Nat) : String :=
  ⟨(bs.map hexByte).flatten⟩

/-! ## xxhash 64 (github.com/cespare/xxhash, seed 0)

The digest used by storeFile to derive identifiers from content. The
constants and the round structure are those of the XXH64 algorithm; all
arithmetic is on Nat modulo 2 ^ 64. The chunk loops are written with an
explicit fuel argument (always called with the byte-list length, which
bounds the number of iterations) so that every definition reduces by
kernel computation. -/

def xxMask : Nat := 2 ^ 64

def xxPrime1 : Nat := 11400714785074694791

def xxPrime2 : Nat := 14029467366897019727

def xxPrime3 : Nat := 1609587929392839161

def xxPrime4 : Nat := 9650029242287828579

def xxPrime5 : Nat := 2870177450012600261

/-- Rotate a 64-bit value left by r bits. -/
def xxRotl (x r : Nat) : Nat :=
  ((x <<< r) ||| (x >>> (64 - r))) % xxMask

/-- Little-endian value of a byte list. -/
def leNat (l : List Nat) : Nat :=
  l.foldr (fun b acc => acc * 256 + b) 0

/-- The XXH64 accumulator round. -/
def xxRound (acc input : Nat) : Nat :=
  (xxRotl ((acc + input * xxPrime2) % xxMask) 31 * xxPrime1) % xxMask

/-- The XXH64 merge round used after the 32-byte stripe loop. -/
def xxMergeRound (acc v : Nat) : Nat :=
  (((acc ^^^ xxRound 0 v) * xxPrime1) % xxMask + xxPrime4) % xxMask

/-- The 32-byte stripe loop of XXH64: consume 32-byte chunks into the
four lane accumulators while at least 32 bytes remain. -/
def xxStripes : Nat → Nat × Nat × Nat × Nat → List Nat → (Nat × Nat × Nat × Nat) × List Nat
  | 0, vs, l => (vs, l)
  | fuel + 1, (v1, v2, v3, v4), l =>
    if 32 ≤ l.length then
      xxStripes fuel
        (xxRound v1 (leNat (l.take 8)),
         xxRound v2 (leNat ((l.drop 8).take 8)),
         xxRound v3 (leNat ((l.drop 16).take 8)),
         xxRound v4 (leNat ((l.drop 24).take 8)))
        (l.drop 32)
    else ((v1, v2, v3, v4), l)

/-- The 8-byte tail loop of XXH64. -/
def xxTail8 : Nat → Nat → List Nat → Nat × List Nat
  | 0, h, l => (h, l)
  | fuel + 1, h, l =>
    if 8 ≤ l.length then
      xxTail8 fuel
        ((xxRotl (h ^^^ xxRound 0 (leNat (l.take 8))) 27 * xxPrime1 + xxPrime4) % xxMask)
        (l.drop 8)
    else (h, l)

/-- The single 4-byte step of the XXH64 tail. -/
def xxTail4 (h : Nat) (l : List Nat) : Nat × List Nat :=
  if 4 ≤ l.length then
    (((xxRotl (h ^^^ (leNat (l.take 4) * xxPrime1) % xxMask) 23 * xxPrime2) % xxMask + xxPrime3) % xxMask,
     l.drop 4)
  else (h, l)

/-- The byte-at-a-time tail loop of XXH64. -/
def xxTail1 : Nat → List Nat → Nat
  | h, [] => h
  | h, b :: rest =>
    xxTail1 ((xxRotl (h ^^^ (b * xxPrime5) % xxMask) 11 * xxPrime1) % xxMask) rest

/-- The XXH64 final avalanche. -/
def xxAvalanche (h0 : Nat) : Nat :=
  let h1 := h0 ^^^ (h0 >>> 33)
  let h2 := h1 * xxPrime2 % xxMask
  let h3 := h2 ^^^ (h2 >>> 29)
  let h4 := h3 * xxPrime3 % xxMask
  h4 ^^^ (h4 >>> 32)

/-- XXH64 with seed 0 over a byte list, the content digest storeFile
uses to derive identifiers. -/
def xxh64 (bytes : List Nat) : Nat :=
  let len := bytes.length
  let hrest : Nat × List Nat :=
    if 32 ≤ len then
      let v1 := (xxPrime1 + xxPrime2) % xxMask
      let v2 := xxPrime2
      let v3 := 0
      let v4 := (xxMask - xxPrime1) % xxMask
      let sr := xxStripes len (v1, v2, v3, v4) bytes
      let w1 := sr.1.1
      let w2 := sr.1.2.1
      let w3 := sr.1.2.2.1
      let w4 := sr.1.2.2.2
      let h0 := (xxRotl w1 1 + xxRotl w2 7 + xxRotl w3 12 + xxRotl w4 18) % xxMask
      (xxMergeRound (xxMergeRound (xxMergeRound (xxMergeRound h0 w1) w2) w3) w4, sr.2)
    else (xxPrime5, bytes)
  let h1 := (hrest.1 + len) % xxMask
  let t8 := xxTail8 hrest.2.length h1 hrest.2
  let t4 := xxTail4 t8.1 t8.2
  xxAvalanche (xxTail1 t4.1 t4.2)

/-- The big-endian 8-byte representation of a 64-bit value, as appended
by the Go xxhash Sum method. -/
def u64BytesBE (n : Nat) : List Nat :=
  [n >>> 56 % 256, n >>> 48 % 256, n >>> 40 % 256, n >>> 32 % 256,
   n >>> 24 % 256, n >>> 16 % 256, n >>> 8 % 256, n % 256]

/-- hex.EncodeToString(digest.Sum(nil)): the 16 lowercase hex characters
of a 64-bit digest, most significant byte first. -/
def hexU64 (n : Nat) : String :=
  hexEncode (u64BytesBE n)

/-! ## Go library functions used by the handlers -/

/-- Go's path/filepath.Ext written on the reversed character list: scan
from the end of the path, stop at a path separator, return the suffix
from the last dot. The first argument is the reversed prefix still to
scan, the second accumulates the suffix already scanned (in order). -/
def goExtRevAux : List Char → List Char → Option (List Char)
  | [], _ => none
  | c :: rest, acc =>
    if c = '/' then none
    else if c = '.' then some (c :: acc)
    else goExtRevAux rest (c :: acc)

/-- Go's path/filepath.Ext: the suffix of the final path element
beginning at the final dot, or the empty string if there is none. -/
def goExt (s : String) : String :=
  match goExtRevAux s.data.reverse [] with
  | none => ""
  | some l => ⟨l⟩

/-- Digit-string value: some value iff the list is a nonempty run of
decimal digits. -/
def digitsVal (l : List Char) : Option Nat :=
  if l = [] then none
  else if l.all (fun c => '0' ≤ c && c ≤ '9') then
    some (l.foldl (fun acc c => acc * 10 + (c.toNat - 48)) 0)
  else none

/-- Go's strconv.Atoi: optional single leading sign, then one or more
decimal digits; errors (none) on anything else and on values outside
the int64 range. -/
def goAtoi (s : String) : Option Int :=
  let core : Option Int :=
    match s.data with
    | '+' :: rest => (digitsVal rest).map Int.ofNat
    | '-' :: rest => (digitsVal rest).map (fun n => -(n : Int))
    | l => (digitsVal l).map Int.ofNat
  match core with
  | none => none
  | some v => if v < -(2 ^ 63) ∨ 2 ^ 63 - 1 < v then none else some v

/-! ## Identifier and path policy -/

/-- Character class [a-f0-9] of kNameRegexp. -/
def isHexChar (c : Char) : Bool :=
  ('a' ≤ c && c ≤ 'f') || ('0' ≤ c && c ≤ '9')

/-- Character class [a-z] of kNameRegexp. -/
def isLowerChar (c : Char) : Bool :=
  'a' ≤ c && c ≤ 'z'

/-- kNameRegexp.MatchString for the anchored pattern of 16 lowercase hex
characters, a literal dot, and 3 to 5 lowercase letters. -/
def kNameMatch (s : String) : Bool :=
  (s.data.take 16).length = 16 && (s.data.take 16).all isHexChar &&
    (match s.data.drop 16 with
     | c :: ext =>
       c == '.' && ext.all isLowerChar && decide (3 ≤ ext.length) && decide (ext.length ≤ 5)
     | _ => false)

/-- handlers.go storageName: the candidate itself when it matches
kNameRegexp, the empty string otherwise. -/
def storageName (name : String) : String :=
  if kNameMatch name then name else ""

/-- strings.TrimLeft(path, "/"): drop every leading slash. -/
def trimSlashes (s : String) : String :=
  ⟨s.data.dropWhile (fun c => c = '/')⟩

/-- A 32-lowercase-hex token, the second capture group of
kLutimDeleteRegexp. -/
def isTok32 (l : List Char) : Bool :=
  decide (l.length = 32) && l.all isHexChar

/-- Try to match kLutimDeleteRegexp as the path suffix whose identifier
group has the given length: the path must end in a slash, the letter d,
a slash, an identifier of that length matching the name shape, a slash,
and a 32-hex token. -/
def lutimSuffixAt (l : List Char) (idlen : Nat) : Option (String × String) :=
  if l.length < idlen + 36 then none
  else
    match l.drop (l.length - (idlen + 36)) with
    | '/' :: 'd' :: '/' :: rest =>
      let id := rest.take idlen
      (match rest.drop idlen with
       | '/' :: tok =>
         if kNameMatch ⟨id⟩ && isTok32 tok then some (⟨id⟩, ⟨tok⟩) else none
       | _ => none)
    | _ => none

/-- kLutimDeleteRegexp matching with its capture groups: the pattern is
anchored only at the end of the path, so the leftmost match is the one
whose identifier group is longest (extension of 5, then 4, then 3
letters). -/
def lutimParse (s : String) : Option (String × String) :=
  match lutimSuffixAt s.data 22 with
  | some r => some r
  | none =>
    match lutimSuffixAt s.data 21 with
    | some r => some r
    | none => lutimSuffixAt s.data 20

/-! ## Content store

The storage root is modelled as an association list from identifier to
stored object. A stored object carries the payload bytes plus the two
extended attributes: the raw deletion-token bytes (user.imp.dtoken) and
the optional expiration instant (user.imp.expire). An absent attribute
is modelled as none. -/

/-- One stored object: payload bytes and its two extended attributes. -/
structure StoredObj where
  bytes : List Nat
  dtoken : Option (List Nat)
  expires : Option Int
deriving Repr, DecidableEq

/-- The storage directory: identifiers mapped to stored objects. -/
def Store : Type := List (String × StoredObj)

instance : DecidableEq Store := by
  unfold Store
  infer_instance

/-- Look an identifier up in the storage directory. -/
def lookupStore (st : Store) (name : String) : Option StoredObj :=
  (st.find? (fun p => p.1 == name)).map Prod.snd

/-- Remove an identifier from the storage directory (os.Remove of the
file removes its extended attributes with it). -/
def removeStore (st : Store) (name : String) : Store :=
  st.filter (fun p => p.1 != name)

/-- Bind an identifier to an object, overwriting any previous object of
that name (the rename in storeFile overwrites an existing file). -/
def insertStore (st : Store) (name : String) (o : StoredObj) : Store :=
  (name, o) :: removeStore st name

/-- The result value of storeFile: the new identifier and the
hex-encoded deletion token handed back to the client. -/
structure StoredFileResult where
  name : String
  deletionToken : String
deriving Repr, DecidableEq

/-- The extension chosen by storeFile: filepath.Ext of the original
filename, or ".jpg" when it has none. -/
def extChoice (originalName : String) : String :=
  if goExt originalName = "" then ".jpg" else goExt originalName

/-- The identifier storeFile derives for uploaded content: the 16 hex
characters of the xxhash-64 digest followed by the extension. -/
def storedNameOf (content : List Nat) (originalName : String) : String :=
  hexU64 (xxh64 content) ++ extChoice originalName

/-- handlers.go storeFile on its success path: write the bytes under the
content-derived identifier (overwriting any previous object of that
name), attach the random deletion-token bytes, and attach the
expiration instant now + 24 hours times the lifetime when the lifetime
is positive, else leave no expiration attribute (the source removes any
stale one). The temp-file staging and its failure paths are modelled
separately by storeFileFs. -/
def storeFile (st : Store) (content : List Nat) (originalName : String)
    (lifetimeDays : Int) (randBytes : List Nat) (now : Int) :
    Store × StoredFileResult :=
  let name := storedNameOf content originalName
  let expires : Option Int :=
    if 0 < lifetimeDays then some (now + 24 * lifetimeDays) else none
  (insertStore st name { bytes := content, dtoken := some randBytes, expires := expires },
   { name := name, deletionToken := hexEncode randBytes })

/-- handlers.go deleteFile: read the deletion-token attribute of the
named object; when the object or the attribute is absent, or the
presented token is not the hex encoding of the stored token, fail with
the generic error and change nothing; on a match remove the object. -/
def deleteFile (st : Store) (name : String) (userDeletionToken : String) :
    Store × Except String Unit :=
  match (lookupStore st name).bind (fun o => o.dtoken) with
  | none => (st, .error "no such file or invalid token")
  | some tok =>
    if userDeletionToken = hexEncode tok then (removeStore st name, .ok ())
    else (st, .error "no such file or invalid token")

/-- handlers.go parseLifetimeDays: Atoi of the delete-day form value,
falling back to the server default when parsing fails or the value is
negative, then clamped to the configured maximum when one is set and
the value is zero or exceeds it. -/
def parseLifetimeDays (defaultLifetimeDays maxLifetimeDays : Int)
    (formVal : String) : Int :=
  let lifetimeDays : Int :=
    match goAtoi formVal with
    | none => defaultLifetimeDays
    | some v => if v < 0 then defaultLifetimeDays else v
  if 0 < maxLifetimeDays ∧ (lifetimeDays = 0 ∨ maxLifetimeDays < lifetimeDays) then
    maxLifetimeDays
  else lifetimeDays

/-! ## Temp-file staging and failure paths of storeFile

For the cleanup claims, storeFile is modelled again at the filesystem
level: which of its fallible steps fails, and what remains at the temp
path and the final identifier path when it returns. This follows the
control flow of handlers.go storeFile, including the two deferred
removals (the temp path is removed on every exit, the final path is
removed on exits where the ok flag was never set). -/

/-- Which fallible step of storeFile fails (each flag independently). -/
structure StoreFailures where
  randFail : Bool
  copyFail : Bool
  hashFail : Bool
  renameFail : Bool
  tokenSetFail : Bool
  expireSetFail : Bool
deriving Repr, DecidableEq

/-- What occupies the final identifier path: a pre-existing object of
the same name, or the freshly renamed upload. -/
inductive FinalFile where
  | old
  | renamed
deriving Repr, DecidableEq

/-- Filesystem outcome of one storeFile call: whether the temp file
still exists, and what is at the final identifier path. -/
structure FsState where
  temp : Bool
  final : Option FinalFile
deriving Repr, DecidableEq

/-- handlers.go storeFile at the filesystem level: the staged steps are
random-token generation, temp-file creation and copy, the digest pass,
the rename onto the final name, the deletion-token attach, and (for a
positive lifetime) the expiration attach. Returns the filesystem state
at exit and whether the call succeeded. -/
def storeFileFs (f : StoreFailures) (lifetimeDays : Int) (preexisting : Bool) :
    FsState × Bool :=
  let final0 : Option FinalFile := if preexisting then some .old else none
  if f.randFail then ({ temp := false, final := final0 }, false)
  else if f.copyFail then ({ temp := false, final := final0 }, false)
  else if f.hashFail then ({ temp := false, final := final0 }, false)
  else if f.renameFail then ({ temp := false, final := final0 }, false)
  else if f.tokenSetFail then ({ temp := false, final := none }, false)
  else if 0 < lifetimeDays ∧ f.expireSetFail then ({ temp := false, final := none }, false)
  else ({ temp := false, final := some .renamed }, true)

/-! ## Expiration sweeper (improut.go checkExpired)

One pass of the sweeper walks every entry under the storage root and
inspects its expiration attribute. The attribute of an entry is
modelled as: none when reading it fails (no attribute, walk error, a
temp file or in-flight object without it), some none when the bytes are
present but time.UnmarshalBinary rejects them, and some (some t) when
they decode to the instant t. -/

/-- One entry seen by the sweeper's walk. -/
structure SweepEntry where
  name : String
  expireAttr : Option (Option Int)
deriving Repr, DecidableEq

/-- Whether one walk step of checkExpired keeps the entry: entries whose
attribute is unreadable or unparsable are kept (the walk continues with
the next entry), an entry with a decoded instant is removed exactly
when that instant is strictly before now. -/
def sweepKeep (now : Int) (e : SweepEntry) : Bool :=
  match e.expireAttr with
  | some (some t) => !(decide (t < now))
  | _ => true

/-- One full sweep pass of checkExpired over the walked entries. -/
def sweepPass (now : Int) (es : List SweepEntry) : List SweepEntry :=
  es.filter (sweepKeep now)

/-- The sweep entry corresponding to a stored object: the expiration
attribute is present and well-formed exactly when the object carries an
expiration instant. -/
def entryOf (name : String) (o : StoredObj) : SweepEntry :=
  { name := name, expireAttr := o.expires.map some }

/-! ## Request dispatcher (handlers.go dispatch) -/

/-- HTTP method of a request, as dispatched. -/
inductive Method where
  | get
  | post
  | delete
  | other
deriving Repr, DecidableEq

/-- The two form fields dispatch and parseLifetimeDays consult;
FormValue yields the empty string for an absent field. -/
structure Form where
  format : String
  deleteDay : String
deriving Repr, DecidableEq

/-- The multipart file part of an upload. -/
structure UploadPart where
  content : List Nat
  filename : String
deriving Repr, DecidableEq

/-- An inbound request: method, raw path, form fields, optional file
part, and the X-Deletion-Token header (empty string when absent). -/
structure Request where
  method : Method
  path : String
  form : Form
  filePart : Option UploadPart
  headerToken : String
deriving Repr, DecidableEq

/-- Server configuration consumed by the handlers. -/
structure Config where
  defaultLifetimeDays : Int
  maxLifetimeDays : Int
  xAccel : String
deriving Repr, DecidableEq

/-- The Lutim upload reply message fields the model tracks. -/
structure LutimEnvelope where
  success : Bool
  realShort : String
  short : String
  token : String
  filename : String
  ext : String
  limit : Int
deriving Repr, DecidableEq

/-- An outbound response: status code, the headers the handlers set, the
served bytes, the Lutim JSON envelopes, and (for the safety claims) the
storage name whose location the handler resolved, none when no location
under the storage root was built. -/
structure Response where
  status : Nat
  locationHeader : Option String := none
  deletionTokenHeader : Option String := none
  expiresHeader : Option Int := none
  accelRedirect : Option String := none
  body : Option (List Nat) := none
  envelope : Option LutimEnvelope := none
  jsonDeleteReply : Option Bool := none
  accessedName : Option String := none
deriving Repr, DecidableEq

/-- Whether a deleteFile outcome is success. -/
def resOk (r : Except String Unit) : Bool :=
  match r with
  | .ok _ => true
  | .error _ => false

/-- handlers.go lutimUpload after form parsing: missing file part is a
400; otherwise store the file with the parsed lifetime and reply with
the Lutim JSON envelope, whose ext field is filepath.Ext of the stored
identifier. -/
def lutimUploadM (cfg : Config) (st : Store) (form : Form)
    (filePart : Option UploadPart) (randBytes : List Nat) (now : Int) :
    Store × Response :=
  match filePart with
  | none => (st, { status := 400 })
  | some fp =>
    let lifetimeDays := parseLifetimeDays cfg.defaultLifetimeDays cfg.maxLifetimeDays form.deleteDay
    let r := storeFile st fp.content fp.filename lifetimeDays randBytes now
    (r.1,
     { status := 200,
       envelope := some
         { success := true, realShort := r.2.name, short := r.2.name,
           token := r.2.deletionToken, filename := fp.filename,
           ext := goExt r.2.name, limit := lifetimeDays } })

/-- handlers.go restUpload after form parsing: missing file part is a
400; otherwise store the file, set the deletion-token header (and the
Expires header when the object expires) and redirect 302 to the new
identifier. -/
def restUploadM (cfg : Config) (st : Store) (form : Form)
    (filePart : Option UploadPart) (randBytes : List Nat) (now : Int) :
    Store × Response :=
  match filePart with
  | none => (st, { status := 400 })
  | some fp =>
    let lifetimeDays := parseLifetimeDays cfg.defaultLifetimeDays cfg.maxLifetimeDays form.deleteDay
    let r := storeFile st fp.content fp.filename lifetimeDays randBytes now
    (r.1,
     { status := 302,
       locationHeader := some ("/" ++ r.2.name),
       deletionTokenHeader := some r.2.deletionToken,
       expiresHeader := (lookupStore r.1 r.2.name).bind (fun o => o.expires) })

/-- handlers.go restDelete: an invalid path segment is a 404 without
touching storage; otherwise deleteFile with the header token, a failure
being reported as a plain 404 and success as 204. -/
def restDeleteM (st : Store) (path : String) (headerToken : String) :
    Store × Response :=
  let name := storageName (trimSlashes path)
  if name = "" then (st, { status := 404 })
  else
    let r := deleteFile st name headerToken
    if resOk r.2 then (r.1, { status := 204, accessedName := some name })
    else (r.1, { status := 404, accessedName := some name })

/-- handlers.go lutimDelete on a path the delete regexp matched:
re-validate the captured identifier (400 if it fails, which cannot
happen for a captured group), then deleteFile with the captured token
and reply with the JSON delete envelope, status 200 on success and 400
on failure. -/
def lutimDeleteM (st : Store) (id tok : String) : Store × Response :=
  let name := storageName id
  if name = "" then (st, { status := 400 })
  else
    let r := deleteFile st name tok
    (r.1,
     { status := if resOk r.2 then 200 else 400,
       jsonDeleteReply := some (resOk r.2),
       accessedName := some name })

/-- handlers.go dispatch: route by method and path. GET serves the help
page at the root, the Lutim delete link when the delete regexp matches,
and otherwise fetches by validated identifier (404 for an invalid
segment; the accelerated-redirect header instead of serving when
configured). POST at the root uploads, choosing the Lutim dialect
exactly when the format field is the string json. DELETE removes by
validated identifier with the header token. Anything else is a 405. -/
def dispatch (cfg : Config) (st : Store) (req : Request)
    (randBytes : List Nat) (now : Int) : Store × Response :=
  match req.method with
  | .get =>
    if req.path = "/" then (st, { status := 200 })
    else
      match lutimParse req.path with
      | some (id, tok) => lutimDeleteM st id tok
      | none =>
        let name := storageName (trimSlashes req.path)
        if name = "" then (st, { status := 404 })
        else if cfg.xAccel = "" then
          match lookupStore st name with
          | some o => (st, { status := 200, body := some o.bytes, accessedName := some name })
          | none => (st, { status := 404, accessedName := some name })
        else
          (st, { status := 204, accelRedirect := some (cfg.xAccel ++ "/" ++ name),
                 accessedName := some name })
  | .post =>
    if req.path ≠ "/" then (st, { status := 404 })
    else if req.form.format = "json" then
      lutimUploadM cfg st req.form req.filePart randBytes now
    else
      restUploadM cfg st req.form req.filePart randBytes now
  | .delete => restDeleteM st req.path req.headerToken
  | .other => (st, { status := 405 })

/-- An upload request: a multipart POST to the root path with the given
form fields and file part, and no deletion-token header. -/
def uploadReq (form : Form) (fp : Option UploadPart) : Request :=
  { method := Method.post, path := "/", form := form, filePart := fp, headerToken := "" }

/-- The shape of identifiers as the specification phrases it: exactly
16 lowercase hex characters, a literal dot, and an extension of lo to
hi lowercase letters. -/
def nameShape (s : String) (lo hi : Nat) : Prop :=
  ∃ a b : List Char, s.data = a ++ '.' :: b ∧ a.length = 16 ∧
    (∀ c ∈ a, isHexChar c = true) ∧ lo ≤ b.length ∧ b.length ≤ hi ∧
    ∀ c ∈ b, isLowerChar c = true

/-- The configuration of the reference scenario: the default lifetime
of 7 days, no maximum, no accelerated redirect. -/
def scenarioConfig : Config :=
  { defaultLifetimeDays := 7, maxLifetimeDays := 0, xAccel := "" }

/-- A fetch or delete request for a path with the given deletion-token
header. -/
def pathReq (m : Method) (path tok : String) : Request :=
  { method := m, path := path, form := { format := "", deleteDay := "" },
    filePart := none, headerToken := tok }

/-- The outcome claimed by the reference scenario: uploading the bytes
1, 2, 3, 42 under the name joconde.png via the REST dialect yields a
302 redirect to the content-derived identifier with the hex-encoded
deletion token in the header and a non-empty token; deleting with a
wrong token is a 404 that changes nothing; deleting with the returned
token is a 204; fetching afterwards is a 404. -/
def c7Scenario (r : List Nat) (w : String) (now : Int) : Prop :=
  let s1 := dispatch scenarioConfig []
    (uploadReq { format := "", deleteDay := "" }
      (some { content := [1, 2, 3, 42], filename := "joconde.png" })) r now
  let s2 := dispatch scenarioConfig s1.1
    (pathReq Method.delete "/3677e35be4b1ad2d.png" w) r now
  let s3 := dispatch scenarioConfig s2.1
    (pathReq Method.delete "/3677e35be4b1ad2d.png" (hexEncode r)) r now
  let s4 := dispatch scenarioConfig s3.1
    (pathReq Method.get "/3677e35be4b1ad2d.png" "") r now
  s1.2.status = 302 ∧
  s1.2.locationHeader = some "/3677e35be4b1ad2d.png" ∧
  s1.2.deletionTokenHeader = some (hexEncode r) ∧
  hexEncode r ≠ "" ∧
  s2.2.status = 404 ∧ s2.1 = s1.1 ∧
  s3.2.status = 204 ∧
  s4.2.status = 404

/-! ## Store lemmas -/

theorem lookupStore_cons (a : String × StoredObj) (st : Store) (m : String) :
    lookupStore (a :: st) m = if a.1 = m then some a.2 else lookupStore st m := by
  by_cases h : a.1 = m
  · simp [lookupStore, List.find?_cons_of_pos, h]
  · simp [lookupStore, List.find?_cons_of_neg, h]

theorem removeStore_cons (a : String × StoredObj) (st : Store) (n : String) :
    removeStore (a :: st) n = if a.1 = n then removeStore st n else a :: removeStore st n := by
  by_cases h : a.1 = n <;> simp [removeStore, List.filter_cons, h]

theorem lookupStore_removeStore_self (st : Store) (n : String) :
    lookupStore (removeStore st n) n = none := by
  induction st with
  | nil => rfl
  | cons a st ih =>
    rw [removeStore_cons]
    by_cases h : a.1 = n
    · rw [if_pos h]; exact ih
    · rw [if_neg h, lookupStore_cons, if_neg h]; exact ih

theorem lookupStore_removeStore_ne (st : Store) (n m : String) (h : m ≠ n) :
    lookupStore (removeStore st n) m = lookupStore st m := by
  induction st with
  | nil => rfl
  | cons a st ih =>
    rw [removeStore_cons, lookupStore_cons]
    by_cases h1 : a.1 = n
    · have h2 : ¬ a.1 = m := fun hc => h (hc ▸ h1 ▸ rfl)
      rw [if_pos h1, if_neg h2, ih]
    · rw [if_neg h1, lookupStore_cons]
      by_cases h2 : a.1 = m
      · rw [if_pos h2, if_pos h2]
      · rw [if_neg h2, if_neg h2, ih]

theorem lookupStore_insertStore_self (st : Store) (n : String) (o : StoredObj) :
    lookupStore (insertStore st n o) n = some o := by
  rw [insertStore, lookupStore_cons]
  exact if_pos rfl

theorem deleteFile_fail_absent (st : Store) (name tok : String)
    (h : (lookupStore st name).bind (fun o => o.dtoken) = none) :
    deleteFile st name tok = (st, Except.error "no such file or invalid token") := by
  unfold deleteFile
  rw [h]

theorem deleteFile_fail_mismatch (st : Store) (name tok : String) (d : List Nat)
    (h : (lookupStore st name).bind (fun o => o.dtoken) = some d)
    (hne : tok ≠ hexEncode d) :
    deleteFile st name tok = (st, Except.error "no such file or invalid token") := by
  unfold deleteFile
  rw [h]
  simp only [if_neg hne]

theorem deleteFile_match (st : Store) (name tok : String) (d : List Nat)
    (h : (lookupStore st name).bind (fun o => o.dtoken) = some d)
    (heq : tok = hexEncode d) :
    deleteFile st name tok = (removeStore st name, Except.ok ()) := by
  unfold deleteFile
  rw [h]
  simp only [if_pos heq]

/-! ## Claim theorems -/

/-- C1: delete first reads the stored deletion-token metadata; if it is
absent (object missing or untagged), or the presented token is not the
hex encoding of the stored token, the operation fails with an error and
the store is unchanged; if they are equal, the object is removed
together with its metadata (the identifier no longer resolves) and no
other object is affected. -/
theorem claim_C1 (st : Store) (name tok : String) :
    ((lookupStore st name = none ∨
      (∃ o, lookupStore st name = some o ∧ o.dtoken = none) ∨
      (∃ o d, lookupStore st name = some o ∧ o.dtoken = some d ∧ tok ≠ hexEncode d)) →
      (deleteFile st name tok).1 = st ∧
        ∃ e, (deleteFile st name tok).2 = Except.error e) ∧
    (∀ o d, lookupStore st name = some o → o.dtoken = some d → tok = hexEncode d →
      (deleteFile st name tok).2 = Except.ok () ∧
      lookupStore (deleteFile st name tok).1 name = none ∧
      ∀ m, m ≠ name → lookupStore (deleteFile st name tok).1 m = lookupStore st m) := by
  constructor
  · intro h
    rcases h with h | ⟨o, ho, hd⟩ | ⟨o, d, ho, hd, hne⟩
    · rw [deleteFile_fail_absent st name tok (by rw [h]; rfl)]
      exact ⟨rfl, _, rfl⟩
    · rw [deleteFile_fail_absent st name tok (by rw [ho]; simpa using hd)]
      exact ⟨rfl, _, rfl⟩
    · rw [deleteFile_fail_mismatch st name tok d (by rw [ho]; simpa using hd) hne]
      exact ⟨rfl, _, rfl⟩
  · intro o d ho hd htok
    rw [deleteFile_match st name tok d (by rw [ho]; simpa using hd) htok]
    refine ⟨rfl, lookupStore_removeStore_self st name, ?_⟩
    intro m hm
    exact lookupStore_removeStore_ne st name m hm

/-- C1 witness: on a one-object store with a matching token the delete
succeeds and the identifier no longer resolves; with a wrong token the
store is unchanged and an error is reported. -/
theorem claim_C1_witness :
    (deleteFile [("a", { bytes := [1], dtoken := some [0], expires := none })] "a" "00").2 =
        Except.ok () ∧
      lookupStore
        (deleteFile [("a", { bytes := [1], dtoken := some [0], expires := none })] "a" "00").1
        "a" = none ∧
      (deleteFile [("a", { bytes := [1], dtoken := some [0], expires := none })] "a" "ff").1 =
        [("a", { bytes := [1], dtoken := some [0], expires := none })] := by
  refine ⟨?_, ?_, ?_⟩
  · exact ((claim_C1 [("a", { bytes := [1], dtoken := some [0], expires := none })] "a" "00").2
      { bytes := [1], dtoken := some [0], expires := none } [0] rfl rfl (by decide)).1
  · exact ((claim_C1 [("a", { bytes := [1], dtoken := some [0], expires := none })] "a" "00").2
      { bytes := [1], dtoken := some [0], expires := none } [0] rfl rfl (by decide)).2.1
  · exact ((claim_C1 [("a", { bytes := [1], dtoken := some [0], expires := none })] "a" "ff").1
      (Or.inr (Or.inr ⟨{ bytes := [1], dtoken := some [0], expires := none }, [0], rfl, rfl,
        by decide⟩))).1

/-- C9: a delete that fails because the deletion-token metadata is
absent (object missing or never tagged) and a delete that fails because
the presented token mismatches produce exactly the same caller-visible
outcome, and both leave their store unchanged. -/
theorem claim_C9 (st1 st2 : Store) (n1 n2 p1 p2 : String) (o : StoredObj) (d : List Nat) :
    (lookupStore st1 n1 = none ∨ (∃ o1, lookupStore st1 n1 = some o1 ∧ o1.dtoken = none)) →
    lookupStore st2 n2 = some o → o.dtoken = some d → p2 ≠ hexEncode d →
    (deleteFile st1 n1 p1).2 = (deleteFile st2 n2 p2).2 ∧
      (deleteFile st1 n1 p1).1 = st1 ∧ (deleteFile st2 n2 p2).1 = st2 := by
  intro h1 h2 hd hne
  have e2 : deleteFile st2 n2 p2 = (st2, Except.error "no such file or invalid token") :=
    deleteFile_fail_mismatch st2 n2 p2 d (by rw [h2]; simpa using hd) hne
  have e1 : deleteFile st1 n1 p1 = (st1, Except.error "no such file or invalid token") := by
    rcases h1 with h | ⟨o1, ho, hdo⟩
    · exact deleteFile_fail_absent st1 n1 p1 (by rw [h]; rfl)
    · exact deleteFile_fail_absent st1 n1 p1 (by rw [ho]; simpa using hdo)
  rw [e1, e2]
  exact ⟨rfl, rfl, rfl⟩

/-- C9 witness: deleting a missing identifier and deleting an existing
one with a wrong token report the identical outcome. -/
theorem claim_C9_witness :
    (deleteFile [] "a" "xx").2 =
      (deleteFile [("b", { bytes := [1], dtoken := some [0], expires := none })] "b" "xx").2 := by
  exact (claim_C9 [] [("b", { bytes := [1], dtoken := some [0], expires := none })] "a" "b"
    "xx" "xx" { bytes := [1], dtoken := some [0], expires := none } [0]
    (Or.inl rfl) rfl rfl (by decide)).1

/-- C6: the effective lifetime is the requested form-field value unless
it is missing, unparsable, or negative (then the server default), and
when a server maximum is configured and the effective value is zero or
exceeds it, the result is exactly the maximum. -/
theorem claim_C6 (d m : Int) (s : String) :
    (parseLifetimeDays d m s =
      (let requested : Int :=
        match goAtoi s with
        | none => d
        | some v => if v < 0 then d else v
       if 0 < m ∧ (requested = 0 ∨ m < requested) then m else requested)) ∧
    (goAtoi s = none → ¬(0 < m ∧ (d = 0 ∨ m < d)) → parseLifetimeDays d m s = d) ∧
    (∀ v, goAtoi s = some v → v < 0 → ¬(0 < m ∧ (d = 0 ∨ m < d)) →
      parseLifetimeDays d m s = d) ∧
    (∀ v, goAtoi s = some v → 0 ≤ v → 0 < m → (v = 0 ∨ m < v) →
      parseLifetimeDays d m s = m) := by
  refine ⟨rfl, ?_, ?_, ?_⟩
  · intro h hnc
    unfold parseLifetimeDays
    rw [h]
    simp only [if_neg hnc]
  · intro v h hv hnc
    unfold parseLifetimeDays
    rw [h]
    simp only [if_pos hv, if_neg hnc]
  · intro v h hv hm hc
    unfold parseLifetimeDays
    rw [h]
    have hnneg : ¬ v < 0 := not_lt.mpr hv
    simp only [if_neg hnneg, if_pos (And.intro hm hc)]

/-- C6 witness: an unparsable field falls back to the default, and a
request above the configured maximum is clamped to exactly the
maximum. -/
theorem claim_C6_witness :
    parseLifetimeDays 7 0 "oops" = 7 ∧ parseLifetimeDays 7 10 "50" = 10 := by
  constructor
  · exact (claim_C6 7 0 "oops").2.1 (by decide) (by decide)
  · exact (claim_C6 7 10 "50").2.2.2 50 (by decide) (by decide) (by decide) (Or.inr (by decide))

/-- C8: whichever step of storeFile fails, the temporary file is gone
when it returns (also on success), a failing call never leaves the
freshly renamed upload at its final identifier (it is removed on the
failure path), and a successful call leaves exactly the renamed
object. -/
theorem claim_C8 (f : StoreFailures) (days : Int) (pre : Bool) :
    (storeFileFs f days pre).1.temp = false ∧
      ((storeFileFs f days pre).2 = false →
        (storeFileFs f days pre).1.final ≠ some FinalFile.renamed) ∧
      ((storeFileFs f days pre).2 = true →
        (storeFileFs f days pre).1.final = some FinalFile.renamed) := by
  rcases f with ⟨rf, cf, hf, rnf, tf, ef⟩
  by_cases hd : 0 < days <;>
    cases rf <;> cases cf <;> cases hf <;> cases rnf <;> cases tf <;> cases ef <;>
      cases pre <;> simp [storeFileFs, hd]

/-- C8 witness: with a failing deletion-token attach after the rename
the final path is cleared, and on the all-success path the renamed
object remains; the temp file is gone in both cases. -/
theorem claim_C8_witness :
    (storeFileFs
      { randFail := false, copyFail := false, hashFail := false, renameFail := false,
        tokenSetFail := true, expireSetFail := false } 0 true).1.final ≠
        some FinalFile.renamed ∧
      (storeFileFs
        { randFail := false, copyFail := false, hashFail := false, renameFail := false,
          tokenSetFail := false, expireSetFail := false } 0 true).1.final =
        some FinalFile.renamed ∧
      (storeFileFs
        { randFail := false, copyFail := false, hashFail := false, renameFail := false,
          tokenSetFail := true, expireSetFail := false } 0 true).1.temp = false := by
  refine ⟨?_, ?_, ?_⟩
  · exact (claim_C8
      { randFail := false, copyFail := false, hashFail := false, renameFail := false,
        tokenSetFail := true, expireSetFail := false } 0 true).2.1 (by decide)
  · exact (claim_C8
      { randFail := false, copyFail := false, hashFail := false, renameFail := false,
        tokenSetFail := false, expireSetFail := false } 0 true).2.2 (by decide)
  · exact (claim_C8
      { randFail := false, copyFail := false, hashFail := false, renameFail := false,
        tokenSetFail := true, expireSetFail := false } 0 true).1

/-- One sweep step keeps an entry exactly when its attribute does not
decode to an instant strictly before now. -/
theorem sweepKeep_iff (now : Int) (e : SweepEntry) :
    sweepKeep now e = true ↔ ∀ t, e.expireAttr = some (some t) → ¬ t < now := by
  rcases e with ⟨nm, attr⟩
  rcases attr with _ | attr
  · simp [sweepKeep]
  · rcases attr with _ | t
    · simp [sweepKeep]
    · simp [sweepKeep]

/-- C4: one sweep pass removes exactly the entries whose expiration
attribute is present, well-formed and strictly before the current time;
entries with the attribute absent or unreadable are kept, and the pass
is characterised entry by entry, so one bad entry never affects the
rest of the walk. An object just stored with a positive lifetime is
removed by a sweep exactly once the clock has passed its expiration
instant, and an object stored with lifetime zero carries no expiration
attribute and is never removed. -/
theorem claim_C4 (now : Int) (es : List SweepEntry) (e : SweepEntry) :
    (e ∈ sweepPass now es ↔ e ∈ es ∧ ∀ t, e.expireAttr = some (some t) → ¬ t < now) ∧
    (∀ (st : Store) (content : List Nat) (orig : String) (days : Int)
        (randB : List Nat) (s : Int) (o : StoredObj),
      lookupStore (storeFile st content orig days randB s).1
          (storeFile st content orig days randB s).2.name = some o →
      ((0 < days →
        (sweepKeep now (entryOf (storeFile st content orig days randB s).2.name o) = false ↔
          s + 24 * days < now)) ∧
       (days = 0 →
        sweepKeep now (entryOf (storeFile st content orig days randB s).2.name o) = true))) := by
  constructor
  · rw [sweepPass, List.mem_filter]
    exact and_congr_right (fun _ => sweepKeep_iff now e)
  · intro st content orig days randB s o ho
    have hstored :
        lookupStore (storeFile st content orig days randB s).1
            (storeFile st content orig days randB s).2.name =
          some { bytes := content, dtoken := some randB,
                 expires := if 0 < days then some (s + 24 * days) else none } :=
      lookupStore_insertStore_self st (storedNameOf content orig) _
    rw [hstored] at ho
    have hobj := (Option.some_injective _ ho).symm
    constructor
    · intro hdays
      rw [hobj]
      simp [entryOf, sweepKeep, if_pos hdays]
    · intro hdays
      have hneg : ¬ (0 : Int) < days := by rw [hdays]; exact lt_irrefl 0
      rw [hobj]
      simp [entryOf, sweepKeep, if_neg hneg]

/-- C4 witness: a pass at time 10 over an expired entry, an unexpired
entry, an entry with unreadable metadata and one with no metadata keeps
exactly the latter three; a just-stored object with lifetime 1 is
removed by a sweep after its expiration instant, and one with lifetime
0 is kept even then. -/
theorem claim_C4_witness :
    (({ name := "x", expireAttr := some (some 3) } : SweepEntry) ∈
        sweepPass 10 [{ name := "x", expireAttr := some (some 3) },
          { name := "y", expireAttr := some (some 12) },
          { name := "z", expireAttr := some none },
          { name := "w", expireAttr := none }] ↔
      ({ name := "x", expireAttr := some (some 3) } : SweepEntry) ∈
          ([{ name := "x", expireAttr := some (some 3) },
            { name := "y", expireAttr := some (some 12) },
            { name := "z", expireAttr := some none },
            { name := "w", expireAttr := none }] : List SweepEntry) ∧
        ∀ t, (some (some 3) : Option (Option Int)) = some (some t) → ¬ t < 10) ∧
      (sweepKeep 1000 (entryOf (storeFile [] [1] "a.png" 1 [0] 0).2.name
          { bytes := [1], dtoken := some [0], expires := some 24 }) = false ↔
        (0 : Int) + 24 * 1 < 1000) ∧
      sweepKeep 1000 (entryOf (storeFile [] [1] "a.png" 0 [0] 0).2.name
          { bytes := [1], dtoken := some [0], expires := none }) = true := by
  refine ⟨?_, ?_, ?_⟩
  · exact (claim_C4 10 [{ name := "x", expireAttr := some (some 3) },
      { name := "y", expireAttr := some (some 12) },
      { name := "z", expireAttr := some none },
      { name := "w", expireAttr := none }] { name := "x", expireAttr := some (some 3) }).1
  · exact ((claim_C4 1000 [] { name := "q", expireAttr := none }).2 [] [1] "a.png" 1 [0] 0
      { bytes := [1], dtoken := some [0], expires := some 24 } (by decide)).1 (by decide)
  · exact ((claim_C4 1000 [] { name := "q", expireAttr := none }).2 [] [1] "a.png" 0 [0] 0
      { bytes := [1], dtoken := some [0], expires := none } (by decide)).2 rfl

/-- The executable name matcher recognises exactly the strings of shape
16 lowercase hex characters, a dot, and 3 to 5 lowercase letters. -/
theorem kNameMatch_iff (s : String) : kNameMatch s = true ↔ nameShape s 3 5 := by
  constructor
  · intro h
    unfold kNameMatch at h
    rw [Bool.and_eq_true, Bool.and_eq_true] at h
    obtain ⟨⟨hlen, hhex⟩, hrest⟩ := h
    rcases hd : s.data.drop 16 with _ | ⟨c, ext⟩ <;> rw [hd] at hrest
    · exact absurd hrest (by simp)
    · rw [Bool.and_eq_true, Bool.and_eq_true, Bool.and_eq_true] at hrest
      obtain ⟨⟨⟨hc, hlow⟩, hlo⟩, hhi⟩ := hrest
      have hc2 : c = '.' := by simpa using hc
      refine ⟨s.data.take 16, ext, ?_, by simpa using hlen, ?_, ?_, ?_, ?_⟩
      · rw [← hc2, ← hd, List.take_append_drop]
      · exact List.all_eq_true.mp hhex
      · simpa using hlo
      · simpa using hhi
      · exact List.all_eq_true.mp hlow
  · rintro ⟨a, b, hdata, hlen, hhex, hlo, hhi, hlow⟩
    have htake : s.data.take 16 = a := by
      rw [hdata, ← hlen, List.take_left]
    have hdrop : s.data.drop 16 = '.' :: b := by
      rw [hdata, ← hlen, List.drop_left]
    unfold kNameMatch
    rw [htake, hdrop]
    rw [Bool.and_eq_true, Bool.and_eq_true, Bool.and_eq_true, Bool.and_eq_true, Bool.and_eq_true]
    refine ⟨⟨by simpa using hlen, List.all_eq_true.mpr hhex⟩,
      ⟨⟨by simp, List.all_eq_true.mpr hlow⟩, by simpa using hlo⟩, by simpa using hhi⟩

/-- A matching identifier is a nonempty string. -/
theorem kNameMatch_ne_empty (s : String) (h : kNameMatch s = true) : s ≠ "" := by
  obtain ⟨a, b, hdata, hlen, -⟩ := (kNameMatch_iff s).mp h
  intro heq
  rw [heq] at hdata
  have : a.length = 0 := by
    have h0 : (0 : Nat) = a.length + ('.' :: b).length := by
      simpa using congrArg List.length hdata
    omega
  omega

/-- C2 counterexample: the candidate of 16 hex characters, a dot and a
two-letter extension has the shape the claim calls valid (1 to 4
letters), yet the identifier policy rejects it. -/
theorem claim_C2_counterexample :
    nameShape "0123456789abcdef.ab" 1 4 ∧ storageName "0123456789abcdef.ab" = "" := by
  constructor
  · exact ⟨"0123456789abcdef".data, "ab".data, by decide, by decide, by decide, by decide,
      by decide, by decide⟩
  · decide

/-- C2 amended: the identifier policy accepts a candidate (storageName
returns it unchanged and nonempty) exactly when it consists of 16
lowercase hex characters, a literal dot, and an extension of 3 to 5
lowercase letters; everything else is mapped to the empty string and so
treated as not found. -/
theorem claim_C2 (s : String) :
    (kNameMatch s = true ↔ nameShape s 3 5) ∧
    (storageName s ≠ "" ↔ nameShape s 3 5) ∧
    (kNameMatch s = true → storageName s = s) := by
  refine ⟨kNameMatch_iff s, ?_, ?_⟩
  · rw [← kNameMatch_iff]
    unfold storageName
    by_cases h : kNameMatch s = true
    · rw [if_pos h]
      exact ⟨fun _ => h, fun _ => kNameMatch_ne_empty s h⟩
    · rw [if_neg h]
      exact ⟨fun hc => absurd rfl hc, fun hk => absurd hk h⟩
  · intro h
    unfold storageName
    rw [if_pos h]

/-- C2 amended witness: the example identifier is accepted and has the
16-hex-dot-extension shape; storageName keeps it unchanged. -/
theorem claim_C2_witness :
    nameShape "3677e35be4b1ad2d.png" 3 5 ∧
      storageName "3677e35be4b1ad2d.png" = "3677e35be4b1ad2d.png" := by
  constructor
  · exact (claim_C2 "3677e35be4b1ad2d.png").1.mp (by decide)
  · exact (claim_C2 "3677e35be4b1ad2d.png").2.2 (by decide)

/-- C5 counterexample: a multipart upload whose form carries a
non-empty delete-day field but no format field is answered by the REST
redirect, not by a JSON envelope, so the claimed if-and-only-if fails
at this input. -/
theorem claim_C5_counterexample :
    ¬(((dispatch { defaultLifetimeDays := 7, maxLifetimeDays := 0, xAccel := "" } []
          (uploadReq { format := "", deleteDay := "3" }
            (some { content := [1], filename := "a.png" }))
          [0] 0).2.envelope.isSome = true) ↔
        (({ format := "", deleteDay := "3" } : Form).format = "json" ∨
          ({ format := "", deleteDay := "3" } : Form).deleteDay ≠ "")) := by
  decide

/-- C5 amended: a multipart upload POSTed to the root is answered with
the Lutim JSON envelope exactly when the form carries format equal to
json; the delete-day field plays no part in dialect selection, and an
upload without format equal to json is answered with the 302 redirect
carrying the X-Deletion-Token header even when delete-day is
non-empty. -/
theorem claim_C5 (cfg : Config) (st : Store) (form : Form) (fp : UploadPart)
    (randB : List Nat) (now : Int) :
    ((dispatch cfg st (uploadReq form (some fp)) randB now).2.envelope.isSome = true ↔
      form.format = "json") ∧
    (form.format ≠ "json" →
      (dispatch cfg st (uploadReq form (some fp)) randB now).2.status = 302 ∧
      (dispatch cfg st (uploadReq form (some fp)) randB now).2.deletionTokenHeader =
        some (hexEncode randB)) := by
  by_cases h : form.format = "json"
  · constructor
    · simp [dispatch, uploadReq, h, lutimUploadM]
    · intro hc
      exact absurd h hc
  · constructor
    · simp [dispatch, uploadReq, h, restUploadM]
    · intro _
      simp [dispatch, uploadReq, h, restUploadM, storeFile]

/-- C5 amended witness: a plain upload with an empty format field and a
non-empty delete-day is answered 302 with the deletion-token header,
and carries no JSON envelope. -/
theorem claim_C5_witness :
    (dispatch { defaultLifetimeDays := 7, maxLifetimeDays := 0, xAccel := "" } []
        (uploadReq { format := "", deleteDay := "3" }
          (some { content := [1], filename := "a.png" }))
        [0] 0).2.status = 302 ∧
      (dispatch { defaultLifetimeDays := 7, maxLifetimeDays := 0, xAccel := "" } []
        (uploadReq { format := "", deleteDay := "3" }
          (some { content := [1], filename := "a.png" }))
        [0] 0).2.deletionTokenHeader = some (hexEncode [0]) := by
  exact (claim_C5 { defaultLifetimeDays := 7, maxLifetimeDays := 0, xAccel := "" } []
    { format := "", deleteDay := "3" } { content := [1], filename := "a.png" } [0] 0).2
    (by decide)

/-- A candidate on which storageName does not return the empty string
matches the name pattern and is returned unchanged. -/
theorem storageName_ne (s : String) (h : storageName s ≠ "") :
    kNameMatch s = true ∧ storageName s = s := by
  unfold storageName at h ⊢
  by_cases hk : kNameMatch s = true
  · exact ⟨hk, if_pos hk⟩
  · rw [if_neg hk] at h
    exact absurd rfl h

/-- A matching identifier contains no path separator. -/
theorem kNameMatch_no_slash (n : String) (h : kNameMatch n = true) :
    ∀ c ∈ n.data, c ≠ '/' := by
  obtain ⟨a, b, hdata, -, hhex, -, -, hlow⟩ := (kNameMatch_iff n).mp h
  intro c hc heq
  rw [hdata] at hc
  rcases List.mem_append.mp hc with h1 | h2
  · have hh := hhex c h1
    rw [heq] at hh
    exact absurd hh (by decide)
  · rcases List.mem_cons.mp h2 with h3 | h4
    · rw [h3] at heq
      exact absurd heq (by decide)
    · have hh := hlow c h4
      rw [heq] at hh
      exact absurd hh (by decide)

/-- Whenever the dispatcher resolves a storage location for a GET or
DELETE (the accessedName of the response), that name matches the
identifier pattern. -/
theorem dispatch_accessed_valid (cfg : Config) (st : Store) (req : Request)
    (randB : List Nat) (now : Int) (n : String)
    (hn : (dispatch cfg st req randB now).2.accessedName = some n) :
    kNameMatch n = true := by
  unfold dispatch at hn
  split at hn
  · -- GET
    split at hn
    · simp at hn
    · split at hn
      · -- Lutim delete link
        simp only [lutimDeleteM] at hn
        split at hn
        · simp at hn
        · next hne =>
          obtain ⟨hk, heq⟩ := storageName_ne _ hne
          simp at hn
          rw [← hn, heq]
          exact hk
      · -- fetch by identifier
        by_cases hz : storageName (trimSlashes req.path) = ""
        · rw [if_pos hz] at hn
          simp at hn
        · rw [if_neg hz] at hn
          obtain ⟨hk, heq⟩ := storageName_ne _ hz
          split at hn
          · split at hn <;> simp at hn <;> rw [← hn, heq] <;> exact hk
          · simp at hn
            rw [← hn, heq]
            exact hk
  · -- POST never sets accessedName
    split at hn
    · simp at hn
    · split at hn
      · simp only [lutimUploadM] at hn
        split at hn <;> simp at hn
      · simp only [restUploadM] at hn
        split at hn <;> simp at hn
  · -- DELETE
    simp only [restDeleteM] at hn
    split at hn
    · simp at hn
    · next hne =>
      obtain ⟨hk, heq⟩ := storageName_ne _ hne
      split at hn <;> simp at hn <;> rw [← hn, heq] <;> exact hk
  · simp at hn

/-- A GET or DELETE whose path is not the root, does not match the
Lutim delete-link pattern, and whose trimmed segment fails the
identifier pattern, is answered 404 with no storage location
resolved. -/
theorem dispatch_invalid_404 (cfg : Config) (st : Store) (req : Request)
    (randB : List Nat) (now : Int)
    (hm : req.method = Method.get ∨ req.method = Method.delete)
    (hp : req.path ≠ "/") (hl : lutimParse req.path = none)
    (hk : kNameMatch (trimSlashes req.path) = false) :
    dispatch cfg st req randB now = (st, { status := 404 }) := by
  have hsn : storageName (trimSlashes req.path) = "" := by
    unfold storageName
    rw [if_neg (by rw [hk]; simp)]
  rcases hm with hm | hm
  · unfold dispatch
    rw [hm, if_neg hp, hl, hsn]
    simp
  · unfold dispatch
    rw [hm]
    simp only [restDeleteM]
    rw [hsn]
    simp

/-- C3: for GET and DELETE requests, every storage location the
dispatcher resolves is a pattern-matching identifier (hence a plain
file name containing no path separator, inside the storage root), and a
request whose path segment does not match the identifier shape is
answered 404 without resolving any location under the storage root. -/
theorem claim_C3 (cfg : Config) (st : Store) (req : Request) (randB : List Nat) (now : Int)
    (hm : req.method = Method.get ∨ req.method = Method.delete) :
    (∀ n, (dispatch cfg st req randB now).2.accessedName = some n →
      kNameMatch n = true ∧ ∀ c ∈ n.data, c ≠ '/') ∧
    (req.path ≠ "/" → lutimParse req.path = none →
      kNameMatch (trimSlashes req.path) = false →
      (dispatch cfg st req randB now).2.status = 404 ∧
      (dispatch cfg st req randB now).2.accessedName = none) := by
  constructor
  · intro n hn
    have hk := dispatch_accessed_valid cfg st req randB now n hn
    exact ⟨hk, kNameMatch_no_slash n hk⟩
  · intro hp hl hk
    rw [dispatch_invalid_404 cfg st req randB now hm hp hl hk]
    exact ⟨rfl, rfl⟩

/-- C3 witness: a GET for a traversal path is answered 404 and resolves
no location under the storage root. -/
theorem claim_C3_witness :
    (dispatch { defaultLifetimeDays := 7, maxLifetimeDays := 0, xAccel := "" } []
        { method := Method.get, path := "/../etc/passwd", form := { format := "", deleteDay := "" },
          filePart := none, headerToken := "" } [] 0).2.status = 404 ∧
      (dispatch { defaultLifetimeDays := 7, maxLifetimeDays := 0, xAccel := "" } []
        { method := Method.get, path := "/../etc/passwd", form := { format := "", deleteDay := "" },
          filePart := none, headerToken := "" } [] 0).2.accessedName = none := by
  exact (claim_C3 { defaultLifetimeDays := 7, maxLifetimeDays := 0, xAccel := "" } []
    { method := Method.get, path := "/../etc/passwd", form := { format := "", deleteDay := "" },
      filePart := none, headerToken := "" } [] 0 (Or.inl rfl)).2
    (by decide) (by decide) (by decide)

/-- When the extension scan succeeds, the result starts with the dot
and its remaining characters contain neither a dot nor a separator,
provided the accumulator contains neither. -/
theorem goExtRevAux_some_shape (l : List Char) :
    ∀ acc, (∀ c ∈ acc, c ≠ '.' ∧ c ≠ '/') → ∀ r, goExtRevAux l acc = some r →
      ∃ t, r = '.' :: t ∧ ∀ c ∈ t, c ≠ '.' ∧ c ≠ '/' := by
  induction l with
  | nil =>
    intro acc hacc r hr
    exact absurd hr (by simp [goExtRevAux])
  | cons c rest ih =>
    intro acc hacc r hr
    unfold goExtRevAux at hr
    by_cases hs : c = '/'
    · rw [if_pos hs] at hr
      exact absurd hr (by simp)
    · rw [if_neg hs] at hr
      by_cases hdot : c = '.'
      · rw [if_pos hdot] at hr
        refine ⟨acc, ?_, hacc⟩
        have := Option.some_injective _ hr
        rw [← this, hdot]
      · rw [if_neg hdot] at hr
        exact ih (c :: acc)
          (fun d hd => by
            rcases List.mem_cons.mp hd with h1 | h2
            · rw [h1]; exact ⟨hdot, hs⟩
            · exact hacc d h2) r hr

/-- The extension returned by filepath.Ext is empty or starts with the
dot, with no further dot or separator after it. -/
theorem goExt_shape (s : String) :
    goExt s = "" ∨ ∃ t, (goExt s).data = '.' :: t ∧ ∀ c ∈ t, c ≠ '.' ∧ c ≠ '/' := by
  unfold goExt
  rcases h : goExtRevAux s.data.reverse [] with _ | r
  · exact Or.inl rfl
  · obtain ⟨t, hr, ht⟩ := goExtRevAux_some_shape s.data.reverse [] (by simp) r h
    exact Or.inr ⟨t, by rw [hr], ht⟩

/-- Scanning over characters that are neither dots nor separators walks
past them and stops at the next dot. -/
theorem goExtRevAux_skip (u : List Char) :
    ∀ (rest acc : List Char), (∀ c ∈ u, c ≠ '.' ∧ c ≠ '/') →
      goExtRevAux (u ++ '.' :: rest) acc = some ('.' :: (u.reverse ++ acc)) := by
  induction u with
  | nil =>
    intro rest acc _
    simp [goExtRevAux]
  | cons c u2 ih =>
    intro rest acc hu
    have hc := hu c (List.mem_cons_self c u2)
    have hstep : goExtRevAux ((c :: u2) ++ '.' :: rest) acc =
        goExtRevAux (u2 ++ '.' :: rest) (c :: acc) := by
      show (if c = '/' then none
            else if c = '.' then some (c :: acc)
            else goExtRevAux (u2 ++ '.' :: rest) (c :: acc)) =
        goExtRevAux (u2 ++ '.' :: rest) (c :: acc)
      rw [if_neg hc.2, if_neg hc.1]
    rw [hstep, ih rest (c :: acc) (fun d hd => hu d (List.mem_cons_of_mem c hd))]
    rw [List.reverse_cons, List.append_assoc]
    rfl

/-- filepath.Ext of a string made of a dot-and-separator-free prefix,
a dot, and a dot-and-separator-free tail is exactly the dot and the
tail. -/
theorem goExt_of_data (s : String) (pre t : List Char) (hdata : s.data = pre ++ '.' :: t)
    (_hpre : ∀ c ∈ pre, c ≠ '.' ∧ c ≠ '/') (ht : ∀ c ∈ t, c ≠ '.' ∧ c ≠ '/') :
    goExt s = ⟨'.' :: t⟩ := by
  unfold goExt
  rw [hdata]
  have hrev : (pre ++ '.' :: t).reverse = t.reverse ++ '.' :: pre.reverse := by
    rw [List.reverse_append, List.reverse_cons, List.append_assoc]
    rfl
  rw [hrev,
    goExtRevAux_skip t.reverse pre.reverse []
      (fun c hc => ht c (List.mem_reverse.mp hc))]
  simp

/-- The lowercase hex digits are neither dots nor separators and lie in
the hex character class. -/
theorem hexDigitChar_clean (n : Nat) :
    hexDigitChar n ≠ '.' ∧ hexDigitChar n ≠ '/' := by
  have hm : n % 16 < 16 := Nat.mod_lt _ (by norm_num)
  have haux : ∀ m : Nat, m < 16 →
      (if m < 10 then Char.ofNat (48 + m) else Char.ofNat (87 + m)) ≠ '.' ∧
      (if m < 10 then Char.ofNat (48 + m) else Char.ofNat (87 + m)) ≠ '/' := by
    intro m hmlt
    interval_cases m <;> exact ⟨by decide, by decide⟩
  exact haux (n % 16) hm

/-- Every character of a hex encoding is neither a dot nor a
separator. -/
theorem hexEncode_clean (bs : List Nat) :
    ∀ c ∈ (hexEncode bs).data, c ≠ '.' ∧ c ≠ '/' := by
  intro c hc
  have hc2 : c ∈ (bs.map hexByte).flatten := hc
  obtain ⟨l, hl, hcl⟩ := List.mem_flatten.mp hc2
  obtain ⟨b, -, hb⟩ := List.mem_map.mp hl
  rw [← hb] at hcl
  rcases List.mem_cons.mp hcl with h1 | h2
  · rw [h1]; exact hexDigitChar_clean _
  · rcases List.mem_cons.mp h2 with h3 | h4
    · rw [h3]; exact hexDigitChar_clean _
    · exact absurd h4 (List.not_mem_nil c)

/-- The extension chosen for a stored identifier starts with a dot and
continues with characters that are neither dots nor separators. -/
theorem extChoice_shape (orig : String) :
    ∃ t, (extChoice orig).data = '.' :: t ∧ ∀ c ∈ t, c ≠ '.' ∧ c ≠ '/' := by
  unfold extChoice
  by_cases h : goExt orig = ""
  · rw [if_pos h]
    exact ⟨['j', 'p', 'g'], by decide, by decide⟩
  · rw [if_neg h]
    rcases goExt_shape orig with h1 | ⟨t, ht, htc⟩
    · exact absurd h1 h
    · exact ⟨t, ht, htc⟩

/-- filepath.Ext of a stored identifier is exactly the extension that
was appended to the hex digest. -/
theorem goExt_storedNameOf (content : List Nat) (orig : String) :
    goExt (storedNameOf content orig) = extChoice orig := by
  obtain ⟨t, hdata, htc⟩ := extChoice_shape orig
  have hsd : (storedNameOf content orig).data =
      (hexU64 (xxh64 content)).data ++ '.' :: t := by
    rw [storedNameOf, String.data_append, hdata]
  rw [goExt_of_data _ _ t hsd (hexEncode_clean _) htc]
  apply String.ext
  rw [hdata]

/-- C10: every successful Lutim-dialect upload reply carries an ext
field that is the filepath extension of the stored identifier, which
always includes the leading dot. -/
theorem claim_C10 (cfg : Config) (st : Store) (form : Form) (fp : UploadPart)
    (randB : List Nat) (now : Int) (hjson : form.format = "json") :
    ∃ env, (dispatch cfg st (uploadReq form (some fp)) randB now).2.envelope = some env ∧
      env.ext = goExt (storedNameOf fp.content fp.filename) ∧
      ∃ t, env.ext.data = '.' :: t := by
  obtain ⟨fmt, dd⟩ := form
  have hj : fmt = "json" := hjson
  subst hj
  obtain ⟨t, hdata, htc⟩ := extChoice_shape fp.filename
  refine ⟨{ success := true,
            realShort := storedNameOf fp.content fp.filename,
            short := storedNameOf fp.content fp.filename,
            token := hexEncode randB,
            filename := fp.filename,
            ext := goExt (storedNameOf fp.content fp.filename),
            limit := parseLifetimeDays cfg.defaultLifetimeDays cfg.maxLifetimeDays dd },
      rfl, rfl, ?_⟩
  rw [goExt_storedNameOf fp.content fp.filename]
  exact ⟨t, hdata⟩

/-- C10 witness: a concrete Lutim upload of a png file replies with ext
field .png, which starts with the dot. -/
theorem claim_C10_witness :
    ∃ env, (dispatch { defaultLifetimeDays := 7, maxLifetimeDays := 0, xAccel := "" } []
        (uploadReq { format := "json", deleteDay := "" }
          (some { content := [1, 2, 3, 42], filename := "joconde.png" })) [0] 0).2.envelope =
          some env ∧
      env.ext = goExt (storedNameOf [1, 2, 3, 42] "joconde.png") ∧
      ∃ t, env.ext.data = '.' :: t := by
  exact claim_C10 { defaultLifetimeDays := 7, maxLifetimeDays := 0, xAccel := "" } []
    { format := "json", deleteDay := "" } { content := [1, 2, 3, 42], filename := "joconde.png" }
    [0] 0 rfl

/-- Hex-encoding a nonempty token yields a nonempty string. -/
theorem hexEncode_ne_empty (r : List Nat) (hr : r ≠ []) : hexEncode r ≠ "" := by
  rcases r with _ | ⟨b, rest⟩
  · exact absurd rfl hr
  · intro hc
    have hd : (hexEncode (b :: rest)).data = [] := by rw [hc]
    simp [hexEncode, hexByte] at hd

/-- C7: for any server randomness (a nonempty token) and any presented
token different from the hex-encoded one, the reference scenario plays
out as claimed: the upload of the bytes 1, 2, 3, 42 as joconde.png is
answered 302 to /3677e35be4b1ad2d.png with the non-empty deletion
token; a DELETE with the wrong or absent token is a 404 leaving the
store unchanged; a DELETE with the returned token is a 204; a GET of
the identifier afterwards is a 404. -/
theorem claim_C7 (r : List Nat) (w : String) (now : Int) (hr : r ≠ [])
    (hw : w ≠ hexEncode r) : c7Scenario r w now := by
  have h1 : dispatch scenarioConfig []
      (uploadReq { format := "", deleteDay := "" }
        (some { content := [1, 2, 3, 42], filename := "joconde.png" })) r now =
      ([("3677e35be4b1ad2d.png",
         { bytes := [1, 2, 3, 42], dtoken := some r, expires := some (now + 24 * 7) })],
       { status := 302, locationHeader := some "/3677e35be4b1ad2d.png",
         deletionTokenHeader := some (hexEncode r),
         expiresHeader := some (now + 24 * 7) }) := rfl
  have hdel2 : deleteFile
      [("3677e35be4b1ad2d.png",
        { bytes := [1, 2, 3, 42], dtoken := some r, expires := some (now + 24 * 7) })]
      "3677e35be4b1ad2d.png" w =
      ([("3677e35be4b1ad2d.png",
         { bytes := [1, 2, 3, 42], dtoken := some r, expires := some (now + 24 * 7) })],
       Except.error "no such file or invalid token") :=
    deleteFile_fail_mismatch _ _ _ r rfl hw
  have h2 : dispatch scenarioConfig
      [("3677e35be4b1ad2d.png",
        { bytes := [1, 2, 3, 42], dtoken := some r, expires := some (now + 24 * 7) })]
      (pathReq Method.delete "/3677e35be4b1ad2d.png" w) r now =
      ([("3677e35be4b1ad2d.png",
         { bytes := [1, 2, 3, 42], dtoken := some r, expires := some (now + 24 * 7) })],
       { status := 404, accessedName := some "3677e35be4b1ad2d.png" }) := by
    show (if resOk (deleteFile
            [("3677e35be4b1ad2d.png",
              { bytes := [1, 2, 3, 42], dtoken := some r, expires := some (now + 24 * 7) })]
            "3677e35be4b1ad2d.png" w).2 = true
          then ((deleteFile
            [("3677e35be4b1ad2d.png",
              { bytes := [1, 2, 3, 42], dtoken := some r, expires := some (now + 24 * 7) })]
            "3677e35be4b1ad2d.png" w).1,
            ({ status := 204, accessedName := some "3677e35be4b1ad2d.png" } : Response))
          else ((deleteFile
            [("3677e35be4b1ad2d.png",
              { bytes := [1, 2, 3, 42], dtoken := some r, expires := some (now + 24 * 7) })]
            "3677e35be4b1ad2d.png" w).1,
            ({ status := 404, accessedName := some "3677e35be4b1ad2d.png" } : Response))) = _
    rw [hdel2]
    rfl
  have hdel3 : deleteFile
      [("3677e35be4b1ad2d.png",
        { bytes := [1, 2, 3, 42], dtoken := some r, expires := some (now + 24 * 7) })]
      "3677e35be4b1ad2d.png" (hexEncode r) =
      ([], Except.ok ()) :=
    deleteFile_match _ _ _ r rfl rfl
  have h3 : dispatch scenarioConfig
      [("3677e35be4b1ad2d.png",
        { bytes := [1, 2, 3, 42], dtoken := some r, expires := some (now + 24 * 7) })]
      (pathReq Method.delete "/3677e35be4b1ad2d.png" (hexEncode r)) r now =
      ([], { status := 204, accessedName := some "3677e35be4b1ad2d.png" }) := by
    show (if resOk (deleteFile
            [("3677e35be4b1ad2d.png",
              { bytes := [1, 2, 3, 42], dtoken := some r, expires := some (now + 24 * 7) })]
            "3677e35be4b1ad2d.png" (hexEncode r)).2 = true
          then ((deleteFile
            [("3677e35be4b1ad2d.png",
              { bytes := [1, 2, 3, 42], dtoken := some r, expires := some (now + 24 * 7) })]
            "3677e35be4b1ad2d.png" (hexEncode r)).1,
            ({ status := 204, accessedName := some "3677e35be4b1ad2d.png" } : Response))
          else ((deleteFile
            [("3677e35be4b1ad2d.png",
              { bytes := [1, 2, 3, 42], dtoken := some r, expires := some (now + 24 * 7) })]
            "3677e35be4b1ad2d.png" (hexEncode r)).1,
            ({ status := 404, accessedName := some "3677e35be4b1ad2d.png" } : Response))) = _
    rw [hdel3]
    rfl
  have h4 : dispatch scenarioConfig []
      (pathReq Method.get "/3677e35be4b1ad2d.png" "") r now =
      ([], { status := 404, accessedName := some "3677e35be4b1ad2d.png" }) := rfl
  unfold c7Scenario
  simp only [h1]
  simp only [h2]
  simp only [h3]
  simp only [h4]
  exact ⟨trivial, trivial, trivial, hexEncode_ne_empty r hr, trivial, trivial, trivial, trivial⟩

/-- C7 witness: the scenario at a concrete 16-byte server token and the
wrong presented token. -/
theorem claim_C7_witness :
    c7Scenario [0, 1, 2, 3, 4, 5, 6, 7, 8, 9, 10, 11, 12, 13, 14, 15] "wrong" 0 :=
  claim_C7 [0, 1, 2, 3, 4, 5, 6, 7, 8, 9, 10, 11, 12, 13, 14, 15] "wrong" 0
    (by decide) (by decide)

end Improut
